import Mathlib

/-!
Verification of the Pikafish WASM adapter (src/wasm_api.cpp).

The adapter is a thin stateful facade over an external engine.  We embed it
shallowly: the adapter instance is a record of its fields, and every method
is translated into a list of primitive actions (field writes, engine calls,
host-callback invocations) exactly in the order the C++ performs them.  A
`run` function folds the actions over the state, so temporal claims (writes
before callback, flag set before engine dispatch) become statements about
indices in the action list, and functional claims become statements about
the resulting state.

Engine-side types that are not part of the adapter source (the limits
descriptor, the option store, the progress-info record) are modelled from
the specification, as noted on each definition.
-/

namespace PikafishWasmApi

/-- A host-runtime value held in a callback slot (emscripten val): either
null or a reference to a host function, identified by an id. -/
inductive Val where
  | null : Val
  | fn : Nat → Val
  deriving DecidableEq, Repr

/-- val::isNull test used by the trampolines before invoking a slot. -/
def Val.isNull : Val → Bool
  | Val.null => true
  | Val.fn _ => false

/-- Modelled from the spec: the LimitsDescriptor handed to engine.go
(Search::LimitsType is declared in the engine's search header, which is not
part of the adapter source).  Fields: optional depth, optional node budget,
per-side wall-clock budgets in milliseconds, infinite flag; a freshly
constructed descriptor has every field unset (zero / false). -/
structure LimitsType where
  timeWhite : Int
  timeBlack : Int
  depth : Int
  nodes : Nat
  infinite : Bool
  deriving DecidableEq, Repr

/-- A freshly default-constructed limits descriptor: no field set. -/
def LimitsType.default : LimitsType := ⟨0, 0, 0, 0, false⟩

/-- Modelled from the spec: the engine's progress record Engine::InfoFull,
exposing depth, selDepth, timeMs, nodes, score, hashfull, nps, tbHits; the
counters nodes, nps and tbHits are 64-bit unsigned integers. -/
structure InfoFull where
  depth : Int
  selDepth : Int
  timeMs : Int
  nodes : Nat
  score : Int
  hashfull : Int
  nps : Nat
  tbHits : Nat
  deriving DecidableEq, Repr

/-- static_cast of a 64-bit unsigned integer to an IEEE-754 double
(round to nearest, ties to even, 53 significant bits), expressed as the
integer the double denotes.  Values below 2^53 are exact. -/
def castDouble (n : Nat) : Nat :=
  if n < 2 ^ 53 then n
  else
    let k := n.log2 - 52
    let q := n / 2 ^ k
    let r := n % 2 ^ k
    let half := 2 ^ (k - 1)
    if half < r ∨ (r = half ∧ q % 2 = 1) then (q + 1) * 2 ^ k else q * 2 ^ k

/-- The structured record handed to the host's onUpdate callback: exactly
the eight fields set by the update trampoline. -/
structure UpdateRecord where
  depth : Int
  seldepth : Int
  time : Int
  nodes : Nat
  score : Int
  hashfull : Int
  nps : Nat
  tbhits : Nat
  deriving DecidableEq, Repr

/-- State of one PikafishWASM adapter instance: the cached terminal result,
the searching flag, the two host-callback slots, and the engine's named
option store (modelled from the spec as an association list, since the
engine's OptionsMap is not part of the adapter source). -/
structure PikafishWASM where
  lastBestMove : String
  lastPonder : String
  searching : Bool
  onUpdateCallback : Val
  onBestMoveCallback : Val
  engineOptions : List (String × String)
  deriving DecidableEq, Repr

/-- Primitive effects an adapter method performs, in program order: writes
to the instance's own fields, calls into the engine, and invocations of the
host callbacks. -/
inductive Action where
  | writeLastBestMove : String → Action
  | writeLastPonder : String → Action
  | writeSearching : Bool → Action
  | writeOnUpdateSlot : Val → Action
  | writeOnBestMoveSlot : Val → Action
  | writeOption : String → String → Action
  | engineGo : LimitsType → Action
  | engineStop : Action
  | engineWait : Action
  | engineSetPosition : String → List String → Action
  | engineLoadNetworks : Action
  | engineVerifyNetworks : Action
  | engineSearchClear : Action
  | engineSetTTSize : Nat → Action
  | engineResizeThreads : Action
  | engineQueryFen : Action
  | engineQueryVisualize : Action
  | engineQueryHashfull : Action
  | enginePerft : String → Int → Action
  | hostBestMove : String → String → Action
  | hostUpdate : UpdateRecord → Action
  deriving DecidableEq, Repr

/-- std::map style presence count for the engine option store. -/
def optCount (opts : List (String × String)) (name : String) : Nat :=
  if opts.any (fun p => p.1 = name) then 1 else 0

/-- Assignment through the option store's lookup-by-name. -/
def optAssign (opts : List (String × String)) (name value : String) :
    List (String × String) :=
  opts.map (fun p => if p.1 = name then (p.1, value) else p)

/-- Current value of a named option, if present. -/
def optFind : List (String × String) → String → Option String
  | [], _ => none
  | p :: rest, name => if p.1 = name then some p.2 else optFind rest name

/-- Effect of one primitive action on the adapter state (engine calls and
host-callback invocations leave the adapter's own fields untouched). -/
def applyAction (s : PikafishWASM) : Action → PikafishWASM
  | Action.writeLastBestMove v => { s with lastBestMove := v }
  | Action.writeLastPonder v => { s with lastPonder := v }
  | Action.writeSearching b => { s with searching := b }
  | Action.writeOnUpdateSlot v => { s with onUpdateCallback := v }
  | Action.writeOnBestMoveSlot v => { s with onBestMoveCallback := v }
  | Action.writeOption name value =>
      { s with engineOptions := optAssign s.engineOptions name value }
  | _ => s

/-- Run a method's action list over the adapter state. -/
def run (s : PikafishWASM) (as : List Action) : PikafishWASM :=
  as.foldl applyAction s

/-- Adapter state right after the constructor body: empty cached strings,
searching false, both callback slots null; the engine handle advertises the
option store opts. -/
def initialState (opts : List (String × String)) : PikafishWASM :=
  ⟨"", "", false, Val.null, Val.null, opts⟩

/-- The constructor entry point.  The C++ constructor runs
engine = make_unique of Engine with no try/catch around it, so an engine
exception during construction propagates to the caller; on success the
instance starts in initialState. -/
def construct (engineCtorResult : Except String (List (String × String))) :
    Except String PikafishWASM :=
  match engineCtorResult with
  | Except.error e => Except.error e
  | Except.ok opts => Except.ok (initialState opts)

/-- The trampoline registered with engine.set_on_bestmove: copy best and
ponder into the cached strings, clear the searching flag, then invoke the
host onBestMove slot (with the cached strings) if it is non-null. -/
def bestmoveTrampoline (s : PikafishWASM) (best ponder : String) :
    List Action :=
  let s1 := { s with lastBestMove := best }
  let s2 := { s1 with lastPonder := ponder }
  let s3 := { s2 with searching := false }
  [Action.writeLastBestMove best, Action.writeLastPonder ponder,
   Action.writeSearching false]
    ++ (if !s3.onBestMoveCallback.isNull then
          [Action.hostBestMove s3.lastBestMove s3.lastPonder]
        else [])

/-- The trampoline registered with engine.set_on_update_full: if the host
onUpdate slot is non-null, build the eight-field record (widening the
64-bit counters nodes, nps, tbHits to double) and invoke it; otherwise do
nothing. -/
def updateFullTrampoline (s : PikafishWASM) (info : InfoFull) :
    List Action :=
  if !s.onUpdateCallback.isNull then
    [Action.hostUpdate
      ⟨info.depth, info.selDepth, info.timeMs, castDouble info.nodes,
       info.score, info.hashfull, castDouble info.nps,
       castDouble info.tbHits⟩]
  else []

/-- Body of init's try block: load_networks then verify_networks; an engine
exception aborts the block and carries the error. -/
def initTry (loadResult verifyResult : Except String Unit) :
    List Action × Except String Unit :=
  match loadResult with
  | Except.error e => ([Action.engineLoadNetworks], Except.error e)
  | Except.ok _ =>
    match verifyResult with
    | Except.error e =>
        ([Action.engineLoadNetworks, Action.engineVerifyNetworks],
         Except.error e)
    | Except.ok _ =>
        ([Action.engineLoadNetworks, Action.engineVerifyNetworks],
         Except.ok ())

/-- init: the try block wrapped in catch (const std::exception&) with an
empty handler, so the entry point always returns normally. -/
def init (loadResult verifyResult : Except String Unit) :
    List Action × Except String Unit :=
  let r := initTry loadResult verifyResult
  match r.2 with
  | Except.error _ => (r.1, Except.ok ())
  | Except.ok _ => r

/-- setPosition(fen): forward to the engine with an empty move list. -/
def setPosition (fen : String) : List Action :=
  [Action.engineSetPosition fen []]

/-- setPositionWithMoves(fen, moves): forward both verbatim. -/
def setPositionWithMoves (fen : String) (moves : List String) :
    List Action :=
  [Action.engineSetPosition fen moves]

/-- goDepth(depth): fresh limits with only depth set; searching is set true
and then the engine's go is invoked. -/
def goDepth (depth : Int) : List Action :=
  let limits := LimitsType.default
  let limits := { limits with depth := depth }
  [Action.writeSearching true, Action.engineGo limits]

/-- goTime(timeMs): fresh limits with both per-side time budgets set to
timeMs; searching is set true and then the engine's go is invoked. -/
def goTime (timeMs : Int) : List Action :=
  let limits := LimitsType.default
  let limits := { limits with timeWhite := timeMs }
  let limits := { limits with timeBlack := timeMs }
  [Action.writeSearching true, Action.engineGo limits]

/-- goNodes(nodes): fresh limits with only the node budget set; searching
is set true and then the engine's go is invoked. -/
def goNodes (nodes : Nat) : List Action :=
  let limits := LimitsType.default
  let limits := { limits with nodes := nodes }
  [Action.writeSearching true, Action.engineGo limits]

/-- goInfinite(): fresh limits with only the infinite flag set; searching
is set true and then the engine's go is invoked. -/
def goInfinite : List Action :=
  let limits := LimitsType.default
  let limits := { limits with infinite := true }
  [Action.writeSearching true, Action.engineGo limits]

/-- stop(): forward a stop request to the engine only when searching. -/
def stop (s : PikafishWASM) : List Action :=
  if s.searching then [Action.engineStop] else []

/-- waitForSearchFinished(): block on the engine. -/
def waitForSearchFinished : List Action :=
  [Action.engineWait]

/-- getBestMove(): const accessor returning the cached best move. -/
def getBestMove (s : PikafishWASM) : String :=
  s.lastBestMove

/-- getPonderMove(): const accessor returning the cached ponder move. -/
def getPonderMove (s : PikafishWASM) : String :=
  s.lastPonder

/-- isSearching(): const accessor returning the flag. -/
def isSearching (s : PikafishWASM) : Bool :=
  s.searching

/-- setOption(name, value): assign through the option store only when the
store advertises the name; otherwise do nothing. -/
def setOption (s : PikafishWASM) (name value : String) : List Action :=
  if optCount s.engineOptions name ≠ 0 then
    [Action.writeOption name value]
  else []

/-- setHashSize(mb): dedicated transposition-table resize path. -/
def setHashSize (mb : Nat) : List Action :=
  [Action.engineSetTTSize mb]

/-- clearHash(): ask the engine to drop cached search state. -/
def clearHash : List Action :=
  [Action.engineSearchClear]

/-- setThreads(n): set the Threads option to the decimal form of n, then
ask the engine to rebuild its worker pool. -/
def setThreads (s : PikafishWASM) (n : Int) : List Action :=
  setOption s "Threads" (toString n) ++ [Action.engineResizeThreads]

/-- setOnUpdate(cb): replace the onUpdate slot. -/
def setOnUpdate (cb : Val) : List Action :=
  [Action.writeOnUpdateSlot cb]

/-- setOnBestMove(cb): replace the onBestMove slot. -/
def setOnBestMove (cb : Val) : List Action :=
  [Action.writeOnBestMoveSlot cb]

/-- One host- or engine-originated operation on an adapter instance.
The two engine constructors are the engine worker delivering a terminal
result or a progress event through the registered trampolines. -/
inductive Op where
  | init : Except String Unit → Except String Unit → Op
  | setPosition : String → Op
  | setPositionWithMoves : String → List String → Op
  | goDepth : Int → Op
  | goTime : Int → Op
  | goNodes : Nat → Op
  | goInfinite : Op
  | stop : Op
  | waitForSearchFinished : Op
  | getBestMove : Op
  | getPonderMove : Op
  | isSearching : Op
  | getFen : Op
  | visualize : Op
  | setOption : String → String → Op
  | getHashFull : Op
  | clearHash : Op
  | setHashSize : Nat → Op
  | setThreads : Int → Op
  | setOnUpdate : Val → Op
  | setOnBestMove : Val → Op
  | perft : String → Int → Op
  | engineBestmove : String → String → Op
  | engineUpdate : InfoFull → Op

/-- Does this operation deliver the engine's terminal result? -/
def Op.isEngineBestmove : Op → Bool
  | Op.engineBestmove _ _ => true
  | _ => false

/-- Action trace of one operation, from the current state. -/
def dispatch (s : PikafishWASM) : Op → List Action
  | Op.init lr vr => (init lr vr).1
  | Op.setPosition fen => setPosition fen
  | Op.setPositionWithMoves fen moves => setPositionWithMoves fen moves
  | Op.goDepth d => goDepth d
  | Op.goTime ms => goTime ms
  | Op.goNodes n => goNodes n
  | Op.goInfinite => goInfinite
  | Op.stop => stop s
  | Op.waitForSearchFinished => waitForSearchFinished
  | Op.getBestMove => []
  | Op.getPonderMove => []
  | Op.isSearching => []
  | Op.getFen => [Action.engineQueryFen]
  | Op.visualize => [Action.engineQueryVisualize]
  | Op.setOption name value => setOption s name value
  | Op.getHashFull => [Action.engineQueryHashfull]
  | Op.clearHash => clearHash
  | Op.setHashSize mb => setHashSize mb
  | Op.setThreads n => setThreads s n
  | Op.setOnUpdate cb => setOnUpdate cb
  | Op.setOnBestMove cb => setOnBestMove cb
  | Op.perft fen d => [Action.enginePerft fen d]
  | Op.engineBestmove best ponder => bestmoveTrampoline s best ponder
  | Op.engineUpdate info => updateFullTrampoline s info

/-- State after one operation. -/
def step (s : PikafishWASM) (op : Op) : PikafishWASM :=
  run s (dispatch s op)

/-- State after a sequence of operations. -/
def execOps (s : PikafishWASM) (ops : List Op) : PikafishWASM :=
  ops.foldl step s

/-- The searching flag is written true at some index strictly before every
index at which the engine's go is invoked, and go is invoked. -/
def searchingTrueBeforeGo (as : List Action) : Prop :=
  (∃ j l, as.get? j = some (Action.engineGo l))
  ∧ ∀ j l, as.get? j = some (Action.engineGo l) →
      ∃ i, i < j ∧ as.get? i = some (Action.writeSearching true)

theorem searchingTrueBeforeGo_pair (l : LimitsType) :
    searchingTrueBeforeGo [Action.writeSearching true, Action.engineGo l] := by
  refine ⟨⟨1, l, rfl⟩, ?_⟩
  intro j l' hj
  rcases j with _ | _ | j <;> simp [List.get?] at hj
  exact ⟨0, Nat.zero_lt_one, rfl⟩

theorem run_bestmoveTrampoline (s : PikafishWASM) (best ponder : String) :
    run s (bestmoveTrampoline s best ponder)
      = { s with lastBestMove := best, lastPonder := ponder,
                 searching := false } := by
  cases h : s.onBestMoveCallback <;>
    simp [bestmoveTrampoline, Val.isNull, h, run, applyAction]

/-- C1: when the engine delivers a terminal result, the trampoline copies
best into lastBestMove and ponder into lastPonder, sets searching to
false, and only then invokes the onBestMove host callback exactly when the
slot is non-empty; at the point the callback fires its arguments are best
and ponder and the getters already report best, ponder and not searching. -/
theorem bestmove_trampoline_caches_then_invokes
    (s : PikafishWASM) (best ponder : String) :
    (getBestMove (run s (bestmoveTrampoline s best ponder)) = best
   ∧ getPonderMove (run s (bestmoveTrampoline s best ponder)) = ponder
   ∧ isSearching (run s (bestmoveTrampoline s best ponder)) = false)
  ∧ ((∃ j b p, (bestmoveTrampoline s best ponder).get? j
        = some (Action.hostBestMove b p))
      ↔ s.onBestMoveCallback.isNull = false)
  ∧ (∀ j b p, (bestmoveTrampoline s best ponder).get? j
        = some (Action.hostBestMove b p) →
      b = best ∧ p = ponder
    ∧ getBestMove (run s ((bestmoveTrampoline s best ponder).take j)) = best
    ∧ getPonderMove (run s ((bestmoveTrampoline s best ponder).take j))
        = ponder
    ∧ isSearching (run s ((bestmoveTrampoline s best ponder).take j))
        = false) := by
  refine ⟨?_, ?_, ?_⟩
  · rw [run_bestmoveTrampoline]
    exact ⟨rfl, rfl, rfl⟩
  · cases h : s.onBestMoveCallback
    · constructor
      · rintro ⟨j, b, p, hj⟩
        rcases j with _ | _ | _ | j <;>
          simp [bestmoveTrampoline, Val.isNull, h, List.get?] at hj
      · intro hnull
        simp [Val.isNull] at hnull
    · refine ⟨fun _ => rfl, fun _ => ⟨3, best, ponder, ?_⟩⟩
      simp [bestmoveTrampoline, Val.isNull, h, List.get?]
  · intro j b p hj
    cases h : s.onBestMoveCallback
    · rcases j with _ | _ | _ | j <;>
        simp [bestmoveTrampoline, Val.isNull, h, List.get?] at hj
    · rcases j with _ | _ | _ | _ | j <;>
        simp [bestmoveTrampoline, Val.isNull, h, List.get?] at hj
      obtain ⟨hb, hp⟩ := hj
      subst hb; subst hp
      refine ⟨rfl, rfl, ?_, ?_, ?_⟩ <;>
        simp [bestmoveTrampoline, Val.isNull, h, run, applyAction,
              getBestMove, getPonderMove, isSearching]

/-- C2: every go* entry point writes searching := true strictly before
invoking the engine's go, and the write is unconditional: from any prior
state, including one already searching, the flag ends up true. -/
theorem go_sets_searching_before_engine_go
    (d ms : Int) (n : Nat) (s : PikafishWASM) :
    (searchingTrueBeforeGo (goDepth d)
   ∧ searchingTrueBeforeGo (goTime ms)
   ∧ searchingTrueBeforeGo (goNodes n)
   ∧ searchingTrueBeforeGo goInfinite)
  ∧ (isSearching (run s (goDepth d)) = true
   ∧ isSearching (run s (goTime ms)) = true
   ∧ isSearching (run s (goNodes n)) = true
   ∧ isSearching (run s goInfinite) = true) := by
  refine ⟨⟨?_, ?_, ?_, ?_⟩, ?_, ?_, ?_, ?_⟩ <;>
    first
      | exact searchingTrueBeforeGo_pair _
      | simp [goDepth, goTime, goNodes, goInfinite, run, applyAction,
              isSearching]

/-- C3: each go* entry point hands the engine a fresh limits descriptor
with exactly one logical field changed from the default (goTime sets both
per-side budgets to ms), and the adapter retains nothing: the only change
to its own state is the searching flag. -/
theorem go_builds_fresh_limits (d ms : Int) (n : Nat) (s : PikafishWASM) :
    (∀ j l, (goDepth d).get? j = some (Action.engineGo l) →
        l = { LimitsType.default with depth := d })
  ∧ (∀ j l, (goTime ms).get? j = some (Action.engineGo l) →
        l = { LimitsType.default with timeWhite := ms, timeBlack := ms })
  ∧ (∀ j l, (goNodes n).get? j = some (Action.engineGo l) →
        l = { LimitsType.default with nodes := n })
  ∧ (∀ j l, goInfinite.get? j = some (Action.engineGo l) →
        l = { LimitsType.default with infinite := true })
  ∧ (run s (goDepth d) = { s with searching := true }
   ∧ run s (goTime ms) = { s with searching := true }
   ∧ run s (goNodes n) = { s with searching := true }
   ∧ run s goInfinite = { s with searching := true }) := by
  refine ⟨?_, ?_, ?_, ?_, ?_, ?_, ?_, ?_⟩
  · intro j l hj
    rcases j with _ | _ | j <;>
      simp [goDepth, LimitsType.default, List.get?] at hj
    exact hj.symm
  · intro j l hj
    rcases j with _ | _ | j <;>
      simp [goTime, LimitsType.default, List.get?] at hj
    exact hj.symm
  · intro j l hj
    rcases j with _ | _ | j <;>
      simp [goNodes, LimitsType.default, List.get?] at hj
    exact hj.symm
  · intro j l hj
    rcases j with _ | _ | j <;>
      simp [goInfinite, LimitsType.default, List.get?] at hj
    exact hj.symm
  all_goals
    simp [goDepth, goTime, goNodes, goInfinite, run, applyAction]

/-- C4 counterexample: an engine exception during adapter construction is
not caught at the adapter boundary; it propagates out of the constructor
entry point. -/
theorem construct_error_propagates :
    construct (Except.error "Engine construction failed")
      = Except.error "Engine construction failed" := rfl

/-- C4 amended: exceptions during init()'s load/verify of networks are
caught at the adapter boundary and init() returns normally for every
outcome; an engine exception during adapter construction, however, is not
guarded and propagates out of the constructor. -/
theorem init_swallows_engine_exceptions
    (loadResult verifyResult : Except String Unit) (e : String) :
    (init loadResult verifyResult).2 = Except.ok ()
  ∧ construct (Except.error e) = Except.error e := by
  refine ⟨?_, rfl⟩
  cases loadResult <;> cases verifyResult <;> simp [init, initTry]

/-- C8: stop() forwards a stop request to the engine exactly when the
searching flag is set, never performs the blocking engine wait, and leaves
the entire adapter state unchanged in either case; when not searching it
performs no action at all. -/
theorem stop_noop_when_not_searching (s : PikafishWASM) :
    (Action.engineStop ∈ stop s ↔ s.searching = true)
  ∧ run s (stop s) = s
  ∧ Action.engineWait ∉ stop s
  ∧ (s.searching = false → stop s = []) := by
  cases hs : s.searching <;>
    simp [stop, hs, run, applyAction]

theorem optFind_optAssign_self (opts : List (String × String))
    (name value : String) (h : optCount opts name ≠ 0) :
    optFind (optAssign opts name value) name = some value := by
  induction opts with
  | nil => simp [optCount] at h
  | cons p rest ih =>
      by_cases hp : p.1 = name
      · simp [optAssign, optFind, hp]
      · have h' : optCount rest name ≠ 0 := by
          simpa [optCount, hp] using h
        simpa [optAssign, optFind, hp] using ih h'

theorem optFind_optAssign_other (opts : List (String × String))
    (name value k : String) (hk : k ≠ name) :
    optFind (optAssign opts name value) k = optFind opts k := by
  induction opts with
  | nil => rfl
  | cons p rest ih =>
      by_cases hpk : p.1 = k
      · simp [optAssign, optFind, hpk, hk]
      · by_cases hpn : p.1 = name
        · have hnk : ¬ (name = k) := fun hh => hk hh.symm
          simpa [optAssign, optFind, hpn, hpk, hnk] using ih
        · simpa [optAssign, optFind, hpn, hpk] using ih

theorem execOps_cons (s : PikafishWASM) (op : Op) (ops : List Op) :
    execOps s (op :: ops) = execOps (step s op) ops := rfl

/-- C5: setOption assigns the string value through the engine's option
store exactly when the store advertises the name; an unknown name leaves
the whole state unchanged, and the call is total (it returns normally in
both cases).  A known name receives the value and every other option keeps
its previous value; nothing outside the option store changes. -/
theorem setOption_known_iff (s : PikafishWASM) (name value : String) :
    (optCount s.engineOptions name = 0 → run s (setOption s name value) = s)
  ∧ (optCount s.engineOptions name ≠ 0 →
        (run s (setOption s name value)).engineOptions
          = optAssign s.engineOptions name value
      ∧ optFind (run s (setOption s name value)).engineOptions name
          = some value
      ∧ ∀ k, k ≠ name →
          optFind (run s (setOption s name value)).engineOptions k
            = optFind s.engineOptions k)
  ∧ (run s (setOption s name value)).lastBestMove = s.lastBestMove
  ∧ (run s (setOption s name value)).lastPonder = s.lastPonder
  ∧ (run s (setOption s name value)).searching = s.searching := by
  by_cases hc : optCount s.engineOptions name = 0
  · simp [setOption, hc, run, applyAction]
  · refine ⟨fun h => absurd h hc, fun _ => ⟨?_, ?_, ?_⟩, ?_, ?_, ?_⟩ <;>
      simp [setOption, hc, run, applyAction]
    · exact optFind_optAssign_self s.engineOptions name value hc
    · intro k hk
      exact optFind_optAssign_other s.engineOptions name value k hk

/-- C6: on a progress event with a non-empty onUpdate slot, the adapter
invokes the host with a record of exactly the eight fields depth,
seldepth, time, nodes, score, hashfull, nps, tbhits, the three 64-bit
counters widened to the host's 64-bit floating-point representation; with
an empty slot the event is dropped.  The widening is exact below 2^53 and
the trampoline never changes the adapter state. -/
theorem update_trampoline_builds_record
    (s : PikafishWASM) (info : InfoFull) :
    (s.onUpdateCallback.isNull = false →
        updateFullTrampoline s info
          = [Action.hostUpdate
              ⟨info.depth, info.selDepth, info.timeMs,
               castDouble info.nodes, info.score, info.hashfull,
               castDouble info.nps, castDouble info.tbHits⟩])
  ∧ (s.onUpdateCallback.isNull = true → updateFullTrampoline s info = [])
  ∧ run s (updateFullTrampoline s info) = s
  ∧ (∀ m : Nat, m < 2 ^ 53 → castDouble m = m) := by
  refine ⟨?_, ?_, ?_, ?_⟩
  · intro h
    simp [updateFullTrampoline, h]
  · intro h
    simp [updateFullTrampoline, h]
  · cases h : s.onUpdateCallback <;>
      simp [updateFullTrampoline, Val.isNull, h, run, applyAction]
  · intro m hm
    simp [castDouble, hm]
    intro hgem
    exact absurd hgem (by omega)

theorem step_preserves_cached (s : PikafishWASM) (op : Op)
    (h : op.isEngineBestmove = false) :
    (step s op).lastBestMove = s.lastBestMove
  ∧ (step s op).lastPonder = s.lastPonder := by
  cases op
  case engineBestmove b p => simp [Op.isEngineBestmove] at h
  case init lr vr =>
      cases lr <;> cases vr <;>
        simp [step, dispatch, init, initTry, run, applyAction]
  case stop =>
      cases hs : s.searching <;>
        simp [step, dispatch, stop, hs, run, applyAction]
  case setOption name value =>
      by_cases hc : optCount s.engineOptions name = 0 <;>
        simp [step, dispatch, setOption, hc, run, applyAction]
  case setThreads n =>
      by_cases hc : optCount s.engineOptions "Threads" = 0 <;>
        simp [step, dispatch, setThreads, setOption, hc, run, applyAction]
  case engineUpdate info =>
      cases hu : s.onUpdateCallback <;>
        simp [step, dispatch, updateFullTrampoline, Val.isNull, hu, run,
              applyAction]
  all_goals
    simp [step, dispatch, setPosition, setPositionWithMoves, goDepth,
          goTime, goNodes, goInfinite, waitForSearchFinished, clearHash,
          setHashSize, setOnUpdate, setOnBestMove, run, applyAction]

theorem execOps_preserves_cached (ops : List Op)
    (h : ops.all (fun op => !op.isEngineBestmove) = true) :
    ∀ s : PikafishWASM,
      (execOps s ops).lastBestMove = s.lastBestMove
    ∧ (execOps s ops).lastPonder = s.lastPonder := by
  induction ops with
  | nil => intro s; exact ⟨rfl, rfl⟩
  | cons op rest ih =>
      intro s
      simp [List.all_cons] at h
      have hop : op.isEngineBestmove = false := by
        simpa using h.1
      have hstep := step_preserves_cached s op hop
      have hrest := ih (by simpa [List.all_eq_true] using h.2) (step s op)
      rw [execOps_cons]
      exact ⟨hrest.1.trans hstep.1, hrest.2.trans hstep.2⟩

/-- C7: before the first completed search (any operation sequence with no
terminal engine event) both getters return the empty string on an
instance built by the constructor; and at all times the getters return
the cached fields through a trace of no actions, so they modify no
state. -/
theorem getters_empty_before_first_terminal
    (opts : List (String × String)) (ops : List Op)
    (h : ops.all (fun op => !op.isEngineBestmove) = true) :
    getBestMove (execOps (initialState opts) ops) = ""
  ∧ getPonderMove (execOps (initialState opts) ops) = ""
  ∧ (∀ t : PikafishWASM,
        getBestMove t = t.lastBestMove
      ∧ getPonderMove t = t.lastPonder
      ∧ dispatch t Op.getBestMove = []
      ∧ dispatch t Op.getPonderMove = []) := by
  have hx := execOps_preserves_cached ops h (initialState opts)
  exact ⟨hx.1, hx.2, fun t => ⟨rfl, rfl, rfl, rfl⟩⟩

/-- C9: no host-facing operation writes false into the searching flag:
only the terminal trampoline does.  Any non-terminal operation's trace
contains no write of searching := false, and a searching instance is
still searching after it. -/
theorem searching_cleared_only_by_terminal (s : PikafishWASM) (op : Op)
    (h : op.isEngineBestmove = false) :
    Action.writeSearching false ∉ dispatch s op
  ∧ (s.searching = true → (step s op).searching = true) := by
  cases op
  case engineBestmove b p => simp [Op.isEngineBestmove] at h
  case init lr vr =>
      cases lr <;> cases vr <;>
        simp [step, dispatch, init, initTry, run, applyAction]
  case stop =>
      cases hs : s.searching <;>
        simp [step, dispatch, stop, hs, run, applyAction]
  case setOption name value =>
      by_cases hc : optCount s.engineOptions name = 0 <;>
        simp [step, dispatch, setOption, hc, run, applyAction]
  case setThreads n =>
      by_cases hc : optCount s.engineOptions "Threads" = 0 <;>
        simp [step, dispatch, setThreads, setOption, hc, run, applyAction]
  case engineUpdate info =>
      cases hu : s.onUpdateCallback <;>
        simp [step, dispatch, updateFullTrampoline, Val.isNull, hu, run,
              applyAction]
  all_goals
    simp [step, dispatch, setPosition, setPositionWithMoves, goDepth,
          goTime, goNodes, goInfinite, waitForSearchFinished, clearHash,
          setHashSize, setOnUpdate, setOnBestMove, run, applyAction]

/-- C10: the terminal trampoline updates lastBestMove, lastPonder and
searching unconditionally, in particular when the onBestMove slot is
empty, in which case no host callback is invoked; the getters reflect the
result for every state. -/
theorem terminal_updates_unconditional
    (s : PikafishWASM) (best ponder : String) :
    (run s (bestmoveTrampoline s best ponder)
      = { s with lastBestMove := best, lastPonder := ponder,
                 searching := false })
  ∧ getBestMove (run s (bestmoveTrampoline s best ponder)) = best
  ∧ getPonderMove (run s (bestmoveTrampoline s best ponder)) = ponder
  ∧ (s.onBestMoveCallback.isNull = true →
      ∀ j b p, (bestmoveTrampoline s best ponder).get? j
        ≠ some (Action.hostBestMove b p)) := by
  refine ⟨run_bestmoveTrampoline s best ponder, ?_, ?_, ?_⟩
  · rw [run_bestmoveTrampoline]; rfl
  · rw [run_bestmoveTrampoline]; rfl
  · intro hnull j b p hj
    cases h : s.onBestMoveCallback
    · rcases j with _ | _ | _ | j <;>
        simp [bestmoveTrampoline, Val.isNull, h, List.get?] at hj
    · rw [h] at hnull
      simp [Val.isNull] at hnull

/-- An idle instance whose engine advertises two options. -/
def sampleState : PikafishWASM :=
  ⟨"", "", false, Val.null, Val.null, [("Threads", "1"), ("Hash", "16")]⟩

/-- A searching instance with a registered onBestMove callback. -/
def sampleSearchingState : PikafishWASM :=
  ⟨"", "", true, Val.null, Val.fn 0, []⟩

/-- A searching instance with an onUpdate callback but no onBestMove
callback. -/
def sampleNoBestmoveCbState : PikafishWASM :=
  ⟨"", "", true, Val.fn 1, Val.null, []⟩

theorem bestmove_trampoline_caches_then_invokes_witness :
    isSearching (run sampleSearchingState
      ((bestmoveTrampoline sampleSearchingState "h2e2" "h9h8").take 3))
      = false :=
  ((bestmove_trampoline_caches_then_invokes sampleSearchingState
      "h2e2" "h9h8").2.2 3 "h2e2" "h9h8" (by rfl)).2.2.2.2

theorem go_sets_searching_before_engine_go_witness :
    ∃ i, i < 1 ∧ (goDepth 5).get? i = some (Action.writeSearching true) :=
  (go_sets_searching_before_engine_go 5 1000 100000 sampleState).1.1.2
    1 (⟨0, 0, 5, 0, false⟩ : LimitsType) (by rfl)

theorem go_builds_fresh_limits_witness :
    (⟨0, 0, 0, 0, true⟩ : LimitsType)
      = { LimitsType.default with infinite := true } :=
  (go_builds_fresh_limits 5 1000 100000 sampleState).2.2.2.1
    1 (⟨0, 0, 0, 0, true⟩ : LimitsType) (by rfl)

theorem setOption_known_iff_witness :
    optFind (run sampleState
        (setOption sampleState "Hash" "128")).engineOptions "Hash"
      = some "128"
  ∧ run sampleState (setOption sampleState "Foo" "x") = sampleState :=
  ⟨((setOption_known_iff sampleState "Hash" "128").2.1 (by decide)).2.1,
   (setOption_known_iff sampleState "Foo" "x").1 (by decide)⟩

theorem update_trampoline_builds_record_witness :
    updateFullTrampoline sampleNoBestmoveCbState
        (⟨20, 30, 1500, 123456, 100, 500, 654321, 0⟩ : InfoFull)
      = [Action.hostUpdate
          ⟨20, 30, 1500, castDouble 123456, 100, 500, castDouble 654321,
           castDouble 0⟩] :=
  (update_trampoline_builds_record sampleNoBestmoveCbState
    ⟨20, 30, 1500, 123456, 100, 500, 654321, 0⟩).1 (by rfl)

theorem getters_empty_before_first_terminal_witness :
    getBestMove (execOps (initialState [("Threads", "1")])
      [Op.init (Except.ok ()) (Except.ok ()),
       Op.setPosition "rnbakabnr/9/1c5c1/p1p1p1p1p/9/9/P1P1P1P1P/1C5C1/9/RNBAKABNR w",
       Op.goDepth 5, Op.stop]) = "" :=
  (getters_empty_before_first_terminal [("Threads", "1")]
    [Op.init (Except.ok ()) (Except.ok ()),
     Op.setPosition "rnbakabnr/9/1c5c1/p1p1p1p1p/9/9/P1P1P1P1P/1C5C1/9/RNBAKABNR w",
     Op.goDepth 5, Op.stop] (by rfl)).1

theorem stop_noop_when_not_searching_witness :
    stop sampleState = [] :=
  (stop_noop_when_not_searching sampleState).2.2.2 rfl

theorem searching_cleared_only_by_terminal_witness :
    (step sampleSearchingState Op.stop).searching = true :=
  (searching_cleared_only_by_terminal sampleSearchingState Op.stop
    rfl).2 rfl

theorem terminal_updates_unconditional_witness :
    (bestmoveTrampoline sampleNoBestmoveCbState "a1a2" "b1b2").get? 0
      ≠ some (Action.hostBestMove "a1a2" "b1b2") :=
  (terminal_updates_unconditional sampleNoBestmoveCbState
    "a1a2" "b1b2").2.2.2 rfl 0 "a1a2" "b1b2"

end PikafishWasmApi
